import Mathlib

/-!
Verification development for the resume-NLP backend.

Strings from the Python source are modelled as `List Char`; floats as `ℚ`
(exact rational arithmetic in place of IEEE doubles); Python `None` as
`Option.none`.  Regex-based code (`re.sub`, `re.search`, `re.findall`) is
modelled with a small executable backtracking matcher over a regex AST that
mirrors the concrete patterns appearing in the source.  The sklearn /
sentence-transformers objects (TF-IDF vectorizer, RandomForest classifier,
embedding model) are external libraries, not code of this repository; they
are modelled as abstract function parameters, while every line of control
flow and arithmetic of the repository's own functions is embedded.
-/

namespace ResumeNLP

/-! ## Python string primitives -/

/-- Python whitespace characters (`str.split`, `str.strip`, regex `\s`,
restricted to the ASCII range used throughout this model). -/
def isPyWs (c : Char) : Bool :=
  c = ' ' || c = '\t' || c = '\n' || c = '\r' || c = '\x0b' || c = '\x0c'

/-- Python `str.lower` (ASCII model). -/
def pyLower (s : List Char) : List Char := s.map Char.toLower

/-- Model of `pat in s` for Python strings: substring containment. -/
def hasInfix (pat : List Char) : List Char → Bool
  | [] => pat.isEmpty
  | c :: rest => pat.isPrefixOf (c :: rest) || hasInfix pat rest

/-- Helper for `countOccs`, structurally consuming one character per step;
`skip > 0` means the current character is still part of the previous
occurrence and must be passed over. -/
def countOccsAux (pat : List Char) : Nat → List Char → Nat
  | 0, [] => if pat.isEmpty then 1 else 0
  | _ + 1, [] => 0
  | skip + 1, _ :: rest => countOccsAux pat skip rest
  | 0, c :: rest =>
    if pat.isEmpty then 1 + countOccsAux pat 0 rest
    else if pat.isPrefixOf (c :: rest) then
      1 + countOccsAux pat (pat.length - 1) rest
    else
      countOccsAux pat 0 rest

/-- Python `s.count(pat)`: number of non-overlapping occurrences, scanning
from the left; an empty pattern counts `len(s) + 1` times, as in Python. -/
def countOccs (pat s : List Char) : Nat := countOccsAux pat 0 s

/-- Helper for `pyWords`: `acc` is the current in-progress word, reversed. -/
def pyWordsAux (acc : List Char) : List Char → List (List Char)
  | [] => if acc.isEmpty then [] else [acc.reverse]
  | c :: rest =>
    if isPyWs c then
      if acc.isEmpty then pyWordsAux [] rest else acc.reverse :: pyWordsAux [] rest
    else
      pyWordsAux (c :: acc) rest

/-- Python `s.split()` with no argument: words separated by runs of
whitespace, with no empty words. -/
def pyWords (s : List Char) : List (List Char) := pyWordsAux [] s

/-- Python `s.strip()`: remove leading and trailing whitespace. -/
def pyStrip (s : List Char) : List Char :=
  ((s.dropWhile isPyWs).reverse.dropWhile isPyWs).reverse

/-! ## A small executable regex engine

The AST covers exactly the constructs used by the source's patterns:
character classes with greedy counted repetition, literals (case-sensitive
and case-insensitive), alternation, sequencing, and `\b` word boundaries.
`matchRE` returns all candidate match lengths in backtracking priority
order (greedy quantifiers longest-first, alternation left-first), so the
head of the list is the length Python's `re` engine would match. -/

inductive RE where
  | eps : RE
  | fail : RE
  /-- Greedy repetition of a single-character class: between `lo` and `hi`
  repetitions (`hi = none` means unbounded). -/
  | cls : (Char → Bool) → Nat → Option Nat → RE
  | lit : List Char → RE
  /-- Case-insensitive literal (for patterns compiled with `re.IGNORECASE`). -/
  | litci : List Char → RE
  | wb : RE
  | alt2 : RE → RE → RE
  | seq2 : RE → RE → RE

/-- Regex `\w` (ASCII model of Python's word character). -/
def isWordChar (c : Char) : Bool := c.isAlphanum || c = '_'

/-- The character reached after consuming `l` characters of `s`, used to
evaluate `\b` for the continuation (falls back to `prev` when `l = 0`). -/
def prevAfter (prev : Option Char) (s : List Char) (l : Nat) : Option Char :=
  match (s.take l).getLast? with
  | some c => some c
  | none => prev

/-- Candidate lengths, descending from `top` to `lo`. -/
def greedyLens (lo top : Nat) : List Nat :=
  (List.range (top + 1 - lo)).map (fun k => top - k)

/-- All candidate match lengths of `re` at the start of `s`, given the
character `prev` immediately before `s` (for `\b`), in backtracking
priority order. -/
def matchRE : RE → Option Char → List Char → List Nat
  | .eps, _, _ => [0]
  | .fail, _, _ => []
  | .cls p lo hi, _, s =>
    let run := (s.takeWhile p).length
    let top := match hi with | none => run | some h => min run h
    if lo ≤ top then greedyLens lo top else []
  | .lit w, _, s => if s.take w.length = w then [w.length] else []
  | .litci w, _, s => if pyLower (s.take w.length) = pyLower w then [w.length] else []
  | .wb, prev, s =>
    let pw := match prev with | some c => isWordChar c | none => false
    let nw := match s with | c :: _ => isWordChar c | [] => false
    if pw ≠ nw then [0] else []
  | .alt2 a b, prev, s => matchRE a prev s ++ matchRE b prev s
  | .seq2 a b, prev, s =>
    (matchRE a prev s).flatMap
      (fun l => (matchRE b (prevAfter prev s l) (s.drop l)).map (l + ·))

/-- Sequencing of a list of regexes. -/
def seqL (rs : List RE) : RE := rs.foldr RE.seq2 RE.eps

/-- Alternation of a list of regexes (left-to-right priority). -/
def altL (rs : List RE) : RE := rs.foldr RE.alt2 RE.fail

/-- Model of `re.sub(re, repl, s)`: replace every non-overlapping leftmost match.
As in Python, boundary context for every match is taken from the original
string.  The scan consumes one character per step; `skip > 0` means the
current character is inside the match just replaced.  (None of the
source's patterns can match the empty string; a zero-length candidate is
conservatively treated as no match.) -/
def subAux (r : RE) (repl : List Char) : Option Char → Nat → List Char → List Char
  | _, _, [] => []
  | _, skip + 1, c :: rest => subAux r repl (some c) skip rest
  | prev, 0, c :: rest =>
    match (matchRE r prev (c :: rest)).head? with
    | some (l + 1) => repl ++ subAux r repl (some c) l rest
    | some 0 => c :: subAux r repl (some c) 0 rest
    | none => c :: subAux r repl (some c) 0 rest

def subRE (r : RE) (repl : List Char) (s : List Char) : List Char :=
  subAux r repl none 0 s

/-- Model of `re.search(re, s) is not None`. -/
def searchAux (r : RE) (prev : Option Char) : List Char → Bool
  | [] => !(matchRE r prev []).isEmpty
  | c :: rest => !(matchRE r prev (c :: rest)).isEmpty || searchAux r (some c) rest

def searchRE (r : RE) (s : List Char) : Bool := searchAux r none s

/-! ## nlp_processor.py: `mask_pii`

The five patterns of `mask_pii`, in the order the source applies them. -/

/-- Model of `[A-Za-z0-9._%+-]` (email local part). -/
def emailLocalC (c : Char) : Bool :=
  c.isAlphanum || c = '.' || c = '_' || c = '%' || c = '+' || c = '-'

/-- Model of `[A-Za-z0-9.-]` (email domain). -/
def emailDomainC (c : Char) : Bool := c.isAlphanum || c = '.' || c = '-'

/-- Model of `[A-Z|a-z]` (email TLD; the source's class literally contains `|`). -/
def emailTldC (c : Char) : Bool := c.isAlpha || c = '|'

/-- Model of `\b[A-Za-z0-9._%+-]+@[A-Za-z0-9.-]+\.[A-Z|a-z]{2,}\b` -/
def emailRE : RE := seqL
  [.wb, .cls emailLocalC 1 none, .lit ['@'], .cls emailDomainC 1 none,
   .lit ['.'], .cls emailTldC 2 none, .wb]

/-- Model of `[-.]` -/
def phoneSepC (c : Char) : Bool := c = '-' || c = '.'

/-- Model of `\b\d{3}[-.]?\d{3}[-.]?\d{4}\b` -/
def phoneRE : RE := seqL
  [.wb, .cls Char.isDigit 3 (some 3), .cls phoneSepC 0 (some 1),
   .cls Char.isDigit 3 (some 3), .cls phoneSepC 0 (some 1),
   .cls Char.isDigit 4 (some 4), .wb]

/-- Model of `\b\d{3}-\d{2}-\d{4}\b` -/
def ssnRE : RE := seqL
  [.wb, .cls Char.isDigit 3 (some 3), .lit ['-'], .cls Char.isDigit 2 (some 2),
   .lit ['-'], .cls Char.isDigit 4 (some 4), .wb]

/-- Model of `[\s-]` -/
def cardSepC (c : Char) : Bool := isPyWs c || c = '-'

/-- Model of `\b\d{4}[\s-]?\d{4}[\s-]?\d{4}[\s-]?\d{4}\b` -/
def cardRE : RE := seqL
  [.wb, .cls Char.isDigit 4 (some 4), .cls cardSepC 0 (some 1),
   .cls Char.isDigit 4 (some 4), .cls cardSepC 0 (some 1),
   .cls Char.isDigit 4 (some 4), .cls cardSepC 0 (some 1),
   .cls Char.isDigit 4 (some 4), .wb]

/-- Model of `[A-Za-z\s]` -/
def alphaWsC (c : Char) : Bool := c.isAlpha || isPyWs c

/-- Model of `(?:Street|St|Avenue|Ave|Road|Rd|Drive|Dr|Lane|Ln|Boulevard|Blvd)`,
case-insensitive, alternatives in source order. -/
def streetSuffixRE : RE := altL
  [.litci "Street".data, .litci "St".data, .litci "Avenue".data,
   .litci "Ave".data, .litci "Road".data, .litci "Rd".data,
   .litci "Drive".data, .litci "Dr".data, .litci "Lane".data,
   .litci "Ln".data, .litci "Boulevard".data, .litci "Blvd".data]

/-- Model of `\b\d+\s+[A-Za-z\s]+(?:Street|...|Blvd)\b` with `re.IGNORECASE`. -/
def addressRE : RE := seqL
  [.wb, .cls Char.isDigit 1 none, .cls isPyWs 1 none,
   .cls alphaWsC 1 none, streetSuffixRE, .wb]

/-- Model of `nlp_processor.mask_pii`: the five `re.sub` passes, in source order. -/
def mask_pii (text : List Char) : List Char :=
  let text := subRE emailRE "[EMAIL]".data text
  let text := subRE phoneRE "[PHONE]".data text
  let text := subRE ssnRE "[SSN]".data text
  let text := subRE cardRE "[CARD]".data text
  subRE addressRE "[ADDRESS]".data text

/-! ## nlp_processor.py: `detect_duplicates`

`model.encode` (sentence-transformers) and `cosine_similarity` (sklearn)
are external libraries; their composition is modelled by an abstract
similarity function `sim : String → String → ℚ` giving the cosine
similarity of the embeddings of two texts.  Everything else follows the
source line by line. -/

/-- Model of `np.max` over a nonempty list (`0` as an unused default for `[]`). -/
def npMax : List ℚ → ℚ
  | [] => 0
  | x :: xs => xs.foldl max x

/-- Index of the first occurrence of `a` in `l` (length of `l` if absent). -/
def idxOfFirst (a : ℚ) : List ℚ → Nat
  | [] => 0
  | x :: xs => if x = a then 0 else idxOfFirst a xs + 1

/-- Model of `np.argmax`: index of the first occurrence of the maximum. -/
def npArgmax (l : List ℚ) : Nat := idxOfFirst (npMax l) l

/-- Model of `nlp_processor.detect_duplicates` (threshold `0.95`). -/
def detect_duplicates (sim : String → String → ℚ) (new_text : String)
    (existing_texts : List (String × String)) : Bool × Option String :=
  if existing_texts.isEmpty then (false, none)
  else
    let similarities := existing_texts.map (fun p => sim new_text p.2)
    let threshold : ℚ := 0.95
    let max_similarity := npMax similarities
    if threshold ≤ max_similarity then
      (true, some ((existing_texts.getD (npArgmax similarities) ("", "")).1))
    else
      (false, none)

/-! ## scorer.py

Component scores.  All six functions are embedded from `scorer.py` over
`List Char` text and exact rationals. -/

/-- Model of `models.ComponentScore`: the six component scores. -/
structure ComponentScore where
  skill_match : ℚ
  experience : ℚ
  education : ℚ
  format : ℚ
  keyword_density : ℚ
  timeline : ℚ
deriving Repr, DecidableEq

/-- Model of `scorer.calculate_skill_match_score`.  `job_keywords` defaults to
`None` in the source; `none` and `some []` are both falsy. -/
def calculate_skill_match_score (skills : List (List Char))
    (job_keywords : Option (List (List Char))) : ℚ :=
  let ks := job_keywords.getD []
  if ks.isEmpty then min ((skills.length : ℚ) * 5) 100
  else if skills.isEmpty then 0
  else
    let skills_lower := skills.map pyLower
    let keywords_lower := ks.map pyLower
    let matched := (skills_lower.filter
      (fun skill => keywords_lower.any (fun kw => hasInfix kw skill || hasInfix skill kw))).length
    let match_ratio : ℚ :=
      if keywords_lower.isEmpty then 0 else (matched : ℚ) / (keywords_lower.length : ℚ)
    min (match_ratio * 100) 100

/-- Model of `scorer.calculate_experience_score`. -/
def calculate_experience_score (years : ℚ) : ℚ :=
  if years = 0 then 20
  else if years < 1 then 40
  else if years < 2 then 60
  else if years < 5 then 80
  else if years < 10 then 90
  else 100

/-- Model of `scorer.calculate_education_score`. -/
def calculate_education_score (education : List (List Char)) : ℚ :=
  if education.isEmpty then 30
  else
    let text := pyLower (List.intercalate [' '] education)
    let base : ℚ := 50
    let withTier : ℚ :=
      if ["phd", "doctorate", "ph.d"].any (fun t => hasInfix t.data text) then base + 30
      else if ["master", "mba", "ms", "ma", "msc"].any (fun t => hasInfix t.data text) then base + 20
      else if ["bachelor", "bs", "ba", "bsc"].any (fun t => hasInfix t.data text) then base + 10
      else base
    let withMulti : ℚ := if 1 < education.length then withTier + 10 else withTier
    min withMulti 100

/-- Model of `[•\-\*]\s+` (bullet points). -/
def bulletRE : RE :=
  RE.seq2 (.cls (fun c => c = '•' || c = '-' || c = '*') 1 (some 1)) (.cls isPyWs 1 none)

/-- Model of `\d+\.\s+` (numbered list items). -/
def numberedRE : RE :=
  seqL [.cls Char.isDigit 1 none, .lit ['.'], .cls isPyWs 1 none]

/-- Model of `scorer.calculate_format_score`. -/
def calculate_format_score (text : List Char) : ℚ :=
  let sections := ["experience", "education", "skills", "summary", "objective", "contact"]
  let found_sections := (sections.filter (fun sec => hasInfix sec.data (pyLower text))).length
  let score : ℚ := 50 + ((found_sections : ℚ) / (sections.length : ℚ)) * 30
  let word_count := (pyWords text).length
  let score : ℚ :=
    if 200 ≤ word_count ∧ word_count ≤ 2000 then score + 10
    else if word_count < 200 then score - 20
    else if 2000 < word_count then score - 10
    else score
  let score : ℚ :=
    if searchRE bulletRE text || searchRE numberedRE text then score + 10 else score
  max 0 (min score 100)

/-- Model of `scorer.calculate_keyword_density`. -/
def calculate_keyword_density (text : List Char)
    (keywords : Option (List (List Char))) : ℚ :=
  let ks := keywords.getD []
  if ks.isEmpty then 50
  else
    let text_lower := pyLower text
    let keywords_lower := ks.map pyLower
    let total_occurrences := (keywords_lower.map (fun kw => countOccs kw text_lower)).sum
    let word_count := (pyWords text).length
    if word_count = 0 then 0
    else
      let density : ℚ := ((total_occurrences : ℚ) / (word_count : ℚ)) * 100
      if 1 ≤ density ∧ density ≤ 3 then 100
      else if (1/2 ≤ density ∧ density < 1) ∨ (3 < density ∧ density ≤ 5) then 80
      else if (1/10 ≤ density ∧ density < 1/2) ∨ (5 < density ∧ density ≤ 7) then 60
      else 40

/-- One step of `re.findall(r'(\d{4})\s*[-–]\s*(\d{4}|present|current)', ...)`
(with `re.IGNORECASE`): try to match at the head of `s`, returning the two
capture groups and the total match length.  `\s*` before a non-whitespace
alternative is equivalent to skipping the maximal whitespace run. -/
def dateAt (s : List Char) : Option (List Char × List Char × Nat) :=
  let g1 := s.take 4
  if g1.length = 4 ∧ g1.all Char.isDigit then
    let r1 := s.drop 4
    let ws1 := (r1.takeWhile isPyWs).length
    let r2 := r1.drop ws1
    match r2 with
    | d :: r3 =>
      if d = '-' ∨ d = '–' then
        let ws2 := (r3.takeWhile isPyWs).length
        let r4 := r3.drop ws2
        let g2d := r4.take 4
        if g2d.length = 4 ∧ g2d.all Char.isDigit then
          some (g1, g2d, 4 + ws1 + 1 + ws2 + 4)
        else if pyLower (r4.take 7) = "present".data then
          some (g1, r4.take 7, 4 + ws1 + 1 + ws2 + 7)
        else if pyLower (r4.take 7) = "current".data then
          some (g1, r4.take 7, 4 + ws1 + 1 + ws2 + 7)
        else none
      else none
    | [] => none
  else none

/-- Helper for `findDates`, structurally consuming one character per step;
`skip > 0` means the current character is inside the previous match. -/
def findDatesAux : Nat → List Char → List (List Char × List Char)
  | _, [] => []
  | skip + 1, _ :: rest => findDatesAux skip rest
  | 0, c :: rest =>
    match dateAt (c :: rest) with
    | some (g1, g2, l + 1) => (g1, g2) :: findDatesAux l rest
    | some (_, _, 0) => findDatesAux 0 rest
    | none => findDatesAux 0 rest

/-- Model of `re.findall` for the date pattern: leftmost non-overlapping matches. -/
def findDates (s : List Char) : List (List Char × List Char) := findDatesAux 0 s

/-- Model of `int(...)` on a group of decimal digits. -/
def digitsToNat (s : List Char) : Nat :=
  s.foldl (fun acc c => acc * 10 + (c.toNat - '0'.toNat)) 0

/-- One date range is "valid" (source lines 157–167): the end is
`present`/`current`, or both years parse and start ≤ end. -/
def validRange (p : List Char × List Char) : Bool :=
  if pyLower p.2 = "present".data ∨ pyLower p.2 = "current".data then true
  else digitsToNat p.1 ≤ digitsToNat p.2

/-- Model of `scorer.calculate_timeline_score`. -/
def calculate_timeline_score (text : List Char) : ℚ :=
  let dates := findDates text
  if dates.isEmpty then 30
  else
    let valid_ranges := ((dates.take 5).filter validRange).length
    let score : ℚ := 50
    let score : ℚ :=
      if 0 < valid_ranges then
        score + ((valid_ranges : ℚ) / (min dates.length 5 : ℚ)) * 50
      else score
    min score 100

/-- Model of `scorer.calculate_scores`. -/
def calculate_scores (text : List Char) (skills : List (List Char))
    (experience_years : ℚ) (education : List (List Char))
    (job_keywords : Option (List (List Char))) : ComponentScore :=
  { skill_match := calculate_skill_match_score skills job_keywords
    experience := calculate_experience_score experience_years
    education := calculate_education_score education
    format := calculate_format_score text
    keyword_density := calculate_keyword_density text job_keywords
    timeline := calculate_timeline_score text }

/-! ## api_routes.py: `_compute_composite_score`

The two dict arguments are modelled as partial maps `String → Option ℚ`
(`none` for a missing key and for a stored `None` alike). -/

/-- Python `float(x or 0)` for an optional numeric `x`: `None` (and a
falsy `0`) becomes `0.0`. -/
def pyOr0 : Option ℚ → ℚ
  | none => 0
  | some v => v

/-- Round half to even (Python 3 `round` semantics on an integer target). -/
def roundHalfEven (x : ℚ) : ℤ :=
  let f := Int.floor x
  if x - f < 1/2 then f
  else if 1/2 < x - f then f + 1
  else if Even f then f else f + 1

/-- Python `round(x, 2)`. -/
def pyRound2 (x : ℚ) : ℚ := (roundHalfEven (x * 100) : ℚ) / 100

/-- Model of `api_routes._compute_composite_score`. -/
def _compute_composite_score (component_scores : String → Option ℚ)
    (gemini_analysis : String → Option ℚ) : ℚ :=
  let ats_score := pyOr0 (gemini_analysis "ats_score")
  let match_percentage := pyOr0 (gemini_analysis "match_percentage")
  let skill_match := pyOr0 (component_scores "skill_match")
  let score := (0.5 : ℚ) * ats_score + (0.3 : ℚ) * match_percentage + (0.2 : ℚ) * skill_match
  pyRound2 score

/-! ## job_recommender.py: `JobRecommender.recommend`

`TfidfVectorizer`, the TF-IDF document matrix and `RandomForestClassifier`
are sklearn objects (external code).  They are modelled as abstract
fields: `simFn` stands for `vectorizer.transform` composed with
`cosine_similarity(·, job_matrix)[0]` and yields one similarity per
catalog entry; `jobMatrix` records whether `self.job_matrix is None`;
`classifier` maps a resume text and a category name to the predicted
probability of that category (`none` inside for a category the classifier
does not know, matching `category_probabilities.get(category, 0.0)`).
The ranking logic (`combined_scores`, `np.argsort(...)[::-1]`, `[:top_n]`)
is repository code and is embedded exactly; `np.argsort` is modelled as a
stable ascending argsort (numpy's sort on the small catalogs in use —
insertion sort under the hood — is stable). -/

/-- Model of `job_recommender`'s normalized catalog entry. -/
structure Job where
  id : String
  title : String
  company : Option String
  location : Option String
  category : String
  description : String
  requirements : List String
  skills : List String
  tags : List String
deriving Repr, DecidableEq, Inhabited

/-- One recommendation: the copied job entry plus the three scores the
source attaches to it. -/
structure Recommendation where
  job : Job
  similarity_score : ℚ
  probability_score : ℚ
  final_score : ℚ
deriving Repr, DecidableEq

structure JobRecommender where
  jobs : List Job
  simFn : Option (String → List ℚ)
  jobMatrix : Option Unit
  classifier : Option (String → String → Option ℚ)

/-- Insert into a sorted list according to a boolean `le`. -/
def insertLe {α : Type} (le : α → α → Bool) (x : α) : List α → List α
  | [] => [x]
  | y :: ys => if le x y then x :: y :: ys else y :: insertLe le x ys

/-- Insertion sort according to a boolean `le`. -/
def isortLe {α : Type} (le : α → α → Bool) : List α → List α
  | [] => []
  | x :: xs => insertLe le x (isortLe le xs)

/-- The comparison underlying a stable ascending argsort of `s`: order by
value, breaking ties by original index. -/
def argsortLe (s : List ℚ) (i j : Nat) : Bool :=
  decide (s.getD i 0 < s.getD j 0 ∨ (s.getD i 0 = s.getD j 0 ∧ i ≤ j))

/-- Model of `np.argsort s` (stable, ascending). -/
def argsortAsc (s : List ℚ) : List Nat :=
  isortLe (argsortLe s) (List.range s.length)

/-- Model of `probability_scores` (source lines 112–123): zeros without a
classifier, otherwise each job's own category probability. -/
def probScores (r : JobRecommender) (resume_text : String) : List ℚ :=
  match r.classifier with
  | none => List.replicate r.jobs.length 0
  | some cp => r.jobs.map (fun job => (cp resume_text job.category).getD 0)

/-- Model of `combined_scores = 0.6 * similarity_scores + 0.4 * probability_scores`
(elementwise over the `n` catalog entries). -/
def combinedScores (sims probs : List ℚ) (n : Nat) : List ℚ :=
  (List.range n).map (fun i => (0.6 : ℚ) * sims.getD i 0 + (0.4 : ℚ) * probs.getD i 0)

/-- Model of `ranked_indices[: top_n]`: `np.argsort(combined)[::-1]` truncated. -/
def rankedIndices (combined : List ℚ) (top_n : Nat) : List Nat :=
  ((argsortAsc combined).reverse).take top_n

/-- Model of `JobRecommender.recommend`. -/
def recommend (r : JobRecommender) (resume_text : String) (top_n : Nat) :
    List Recommendation :=
  if pyStrip resume_text.data = [] then []
  else if r.jobs.isEmpty then []
  else
    match r.simFn, r.jobMatrix with
    | some simF, some _ =>
      let sims := simF resume_text
      let probs := probScores r resume_text
      let combined := combinedScores sims probs r.jobs.length
      (rankedIndices combined top_n).map (fun idx =>
        { job := r.jobs.getD idx default
          similarity_score := sims.getD idx 0
          probability_score := probs.getD idx 0
          final_score := combined.getD idx 0 })
    | _, _ => []

/-! ## Spec-side definitions and concrete fixtures -/

/-- The skill-match score as the spec's words describe it ("fraction of
skills that substring-match (either direction) any job keyword, scaled to
100, capped at 100"), for comparison with the source's
`calculate_skill_match_score`, which divides by the number of job
keywords instead. -/
def skillMatchScoreSpec (skills job_keywords : List (List Char)) : ℚ :=
  if skills.isEmpty then 0
  else
    let matched := ((skills.map pyLower).filter (fun skill =>
      (job_keywords.map pyLower).any (fun kw => hasInfix kw skill || hasInfix skill kw))).length
    min ((matched : ℚ) / (skills.length : ℚ) * 100) 100

/-- A two-job catalog whose entries tie on every score: exposes the order
in which `recommend` returns equal-scored entries. -/
def tieBreakRecommender : JobRecommender :=
  { jobs :=
      [{ id := "j1", title := "Job One", company := none, location := none,
         category := "general", description := "python developer",
         requirements := [], skills := [], tags := [] },
       { id := "j2", title := "Job Two", company := none, location := none,
         category := "general", description := "python developer",
         requirements := [], skills := [], tags := [] }]
    simFn := some (fun _ => [1/2, 1/2])
    jobMatrix := some ()
    classifier := none }

/-! ## Helper lemmas: component-score bounds -/

lemma skill_match_score_bounds (skills : List (List Char))
    (job_keywords : Option (List (List Char))) :
    0 ≤ calculate_skill_match_score skills job_keywords ∧
      calculate_skill_match_score skills job_keywords ≤ 100 := by
  have hmin : ∀ x : ℚ, 0 ≤ x → 0 ≤ min x 100 ∧ min x 100 ≤ 100 :=
    fun x hx => ⟨le_min hx (by norm_num), min_le_right _ _⟩
  unfold calculate_skill_match_score
  by_cases h1 : (job_keywords.getD []).isEmpty = true
  · simp only [h1, if_true]
    exact hmin _ (by positivity)
  · simp only [h1, Bool.false_eq_true, if_false]
    by_cases h2 : skills.isEmpty = true
    · simp only [h2, if_true]
      norm_num
    · simp only [h2, Bool.false_eq_true, if_false]
      refine hmin _ (mul_nonneg ?_ (by norm_num))
      by_cases h3 : ((job_keywords.getD []).map pyLower).isEmpty = true
      · simp only [h3, if_true]
        norm_num
      · simp only [h3, Bool.false_eq_true, if_false]
        positivity

lemma experience_score_bounds (years : ℚ) :
    0 ≤ calculate_experience_score years ∧ calculate_experience_score years ≤ 100 := by
  unfold calculate_experience_score
  split_ifs <;> norm_num

lemma education_score_bounds (education : List (List Char)) :
    0 ≤ calculate_education_score education ∧ calculate_education_score education ≤ 100 := by
  unfold calculate_education_score
  split_ifs <;> norm_num <;> split_ifs <;> norm_num

lemma format_score_bounds (text : List Char) :
    0 ≤ calculate_format_score text ∧ calculate_format_score text ≤ 100 := by
  unfold calculate_format_score
  refine ⟨le_max_left _ _, max_le (by norm_num) (min_le_right _ _)⟩

lemma keyword_density_bounds (text : List Char)
    (keywords : Option (List (List Char))) :
    0 ≤ calculate_keyword_density text keywords ∧
      calculate_keyword_density text keywords ≤ 100 := by
  unfold calculate_keyword_density
  dsimp only
  split_ifs <;> norm_num

lemma timeline_score_bounds (text : List Char) :
    0 ≤ calculate_timeline_score text ∧ calculate_timeline_score text ≤ 100 := by
  unfold calculate_timeline_score
  dsimp only
  split_ifs with h1 h2
  · norm_num
  · refine ⟨le_min ?_ (by norm_num), min_le_right _ _⟩
    positivity
  · exact ⟨le_min (by norm_num) (by norm_num), min_le_right _ _⟩

/-! ## Helper lemmas: maxima and first indices -/

lemma foldl_max_mem : ∀ (xs : List ℚ) (x : ℚ), xs.foldl max x ∈ x :: xs := by
  intro xs
  induction xs with
  | nil => intro x; simp
  | cons y ys ih =>
    intro x
    have h := ih (max x y)
    rw [List.foldl_cons]
    rcases List.mem_cons.1 h with h1 | h1
    · rcases max_choice x y with hm | hm
      · rw [h1, hm]; exact List.mem_cons_self _ _
      · rw [h1, hm]; exact List.mem_cons_of_mem _ (List.mem_cons_self _ _)
    · exact List.mem_cons_of_mem _ (List.mem_cons_of_mem _ h1)

lemma npMax_mem {l : List ℚ} (h : l ≠ []) : npMax l ∈ l := by
  cases l with
  | nil => exact absurd rfl h
  | cons x xs => exact foldl_max_mem xs x

lemma idxOfFirst_spec (a : ℚ) :
    ∀ (l : List ℚ), a ∈ l →
      idxOfFirst a l < l.length ∧ l.getD (idxOfFirst a l) 0 = a ∧
        ∀ j, j < idxOfFirst a l → l.getD j 0 ≠ a := by
  intro l
  induction l with
  | nil => intro hl; cases hl
  | cons x xs ih =>
    intro hl
    by_cases hx : x = a
    · refine ⟨?_, ?_, ?_⟩ <;> simp [idxOfFirst, hx]
    · have hmem : a ∈ xs := by
        rcases List.mem_cons.1 hl with h1 | h1
        · exact absurd h1.symm hx
        · exact h1
      obtain ⟨ih1, ih2, ih3⟩ := ih hmem
      refine ⟨?_, ?_, ?_⟩
      · simp only [idxOfFirst, hx, if_false, List.length_cons]
        omega
      · simp only [idxOfFirst, hx, if_false, List.getD_cons_succ]
        exact ih2
      · intro j hj
        simp only [idxOfFirst, hx, if_false] at hj
        cases j with
        | zero => simpa using hx
        | succ k =>
          have hk : k < idxOfFirst a xs := by omega
          simpa using ih3 k hk

/-! ## Helper lemmas: insertion sort and ranking -/

lemma mem_insertLe {α : Type} (le : α → α → Bool) (x : α) :
    ∀ (l : List α) (y : α), y ∈ insertLe le x l ↔ y = x ∨ y ∈ l := by
  intro l
  induction l with
  | nil => intro y; simp [insertLe]
  | cons z zs ih =>
    intro y
    simp only [insertLe]
    split_ifs with h
    · simp [List.mem_cons]
    · simp [List.mem_cons, ih]
      tauto

lemma pairwise_insertLe {α : Type} (le : α → α → Bool)
    (htot : ∀ a b, le a b = true ∨ le b a = true)
    (htrans : ∀ a b c, le a b = true → le b c = true → le a c = true) (x : α) :
    ∀ (l : List α), l.Pairwise (fun a b => le a b = true) →
      (insertLe le x l).Pairwise (fun a b => le a b = true) := by
  intro l
  induction l with
  | nil => intro _; simp [insertLe]
  | cons z zs ih =>
    intro hp
    rw [List.pairwise_cons] at hp
    obtain ⟨hz, hzs⟩ := hp
    simp only [insertLe]
    split_ifs with h
    · refine List.Pairwise.cons ?_ (List.Pairwise.cons hz hzs)
      intro y hy
      rcases List.mem_cons.1 hy with rfl | hy2
      · exact h
      · exact htrans x z y h (hz y hy2)
    · refine List.Pairwise.cons ?_ (ih hzs)
      intro y hy
      rcases (mem_insertLe le x zs y).1 hy with hyx | hy2
      · subst hyx
        rcases htot y z with h2 | h2
        · exact absurd h2 h
        · exact h2
      · exact hz y hy2

lemma pairwise_isortLe {α : Type} (le : α → α → Bool)
    (htot : ∀ a b, le a b = true ∨ le b a = true)
    (htrans : ∀ a b c, le a b = true → le b c = true → le a c = true) :
    ∀ (l : List α), (isortLe le l).Pairwise (fun a b => le a b = true) := by
  intro l
  induction l with
  | nil => simp [isortLe]
  | cons x xs ih => exact pairwise_insertLe le htot htrans x _ ih

lemma argsortLe_total (s : List ℚ) :
    ∀ i j, argsortLe s i j = true ∨ argsortLe s j i = true := by
  intro i j
  simp only [argsortLe, decide_eq_true_eq]
  rcases lt_trichotomy (s.getD i 0) (s.getD j 0) with h | h | h
  · exact Or.inl (Or.inl h)
  · rcases Nat.le_total i j with hij | hij
    · exact Or.inl (Or.inr ⟨h, hij⟩)
    · exact Or.inr (Or.inr ⟨h.symm, hij⟩)
  · exact Or.inr (Or.inl h)

lemma argsortLe_trans (s : List ℚ) :
    ∀ i j k, argsortLe s i j = true → argsortLe s j k = true →
      argsortLe s i k = true := by
  intro i j k
  simp only [argsortLe, decide_eq_true_eq]
  rintro (h1 | ⟨he1, hl1⟩) (h2 | ⟨he2, hl2⟩)
  · exact Or.inl (h1.trans h2)
  · exact Or.inl (he2 ▸ h1)
  · exact Or.inl (he1 ▸ h2)
  · exact Or.inr ⟨he1.trans he2, hl1.trans hl2⟩

/-- The truncated reversed argsort is pairwise lexicographically
descending: scores non-increasing, with equal scores ordered by
descending original index. -/
lemma rankedIndices_pairwise (s : List ℚ) (top_n : Nat) :
    (rankedIndices s top_n).Pairwise
      (fun i j => s.getD j 0 < s.getD i 0 ∨ (s.getD i 0 = s.getD j 0 ∧ j ≤ i)) := by
  have hp := pairwise_isortLe (argsortLe s) (argsortLe_total s) (argsortLe_trans s)
    (List.range s.length)
  have hrev : (argsortAsc s).reverse.Pairwise (fun a b => argsortLe s b a = true) :=
    List.pairwise_reverse.2 hp
  have htake : (rankedIndices s top_n).Pairwise (fun a b => argsortLe s b a = true) :=
    List.Pairwise.sublist (List.take_sublist _ _) hrev
  refine htake.imp ?_
  intro i j hij
  simp only [argsortLe, decide_eq_true_eq] at hij
  rcases hij with h | ⟨he, hle⟩
  · exact Or.inl h
  · exact Or.inr ⟨he.symm, hle⟩

lemma rankedIndices_length (s : List ℚ) (top_n : Nat) :
    (rankedIndices s top_n).length ≤ top_n := by
  unfold rankedIndices
  rw [List.length_take]
  exact Nat.min_le_left _ _

/-- Every `recommend` result is either empty or the image of the
truncated reversed argsort of the combined scores. -/
lemma recommend_shape (r : JobRecommender) (resume_text : String) (top_n : Nat) :
    recommend r resume_text top_n = [] ∨
    ∃ (c : List ℚ) (f : Nat → Recommendation),
      recommend r resume_text top_n = (rankedIndices c top_n).map f ∧
      ∀ i, (f i).final_score = c.getD i 0 := by
  unfold recommend
  split_ifs
  · exact Or.inl rfl
  · exact Or.inl rfl
  · cases r.simFn with
    | none => exact Or.inl (by cases r.jobMatrix <;> rfl)
    | some simF =>
      cases r.jobMatrix with
      | none => exact Or.inl rfl
      | some u => exact Or.inr ⟨_, _, rfl, fun i => rfl⟩

/-! ## Claim theorems -/

/-- Rounding half to even fixes every integer. -/
lemma roundHalfEven_intCast (n : ℤ) : roundHalfEven (n : ℚ) = n := by
  unfold roundHalfEven
  rw [Int.floor_intCast]
  norm_num

/-- Value of `pyRound2` on a rational with at most two decimal places. -/
lemma pyRound2_eq (x : ℚ) (n : ℤ) (h : x * 100 = (n : ℚ)) :
    pyRound2 x = (n : ℚ) / 100 := by
  unfold pyRound2
  rw [h, roundHalfEven_intCast]

/-- C3: `_compute_composite_score` returns
`round(0.5*ats_score + 0.3*match_percentage + 0.2*skill_match, 2)` for
every component-score and analysis mapping; in particular, with
`skill_match = 50`, `ats_score = 80`, `match_percentage = 60` it returns
`68.0`. -/
theorem composite_score_formula :
    (∀ (component_scores gemini_analysis : String → Option ℚ),
      _compute_composite_score component_scores gemini_analysis =
        pyRound2 ((0.5 : ℚ) * pyOr0 (gemini_analysis "ats_score")
          + (0.3 : ℚ) * pyOr0 (gemini_analysis "match_percentage")
          + (0.2 : ℚ) * pyOr0 (component_scores "skill_match"))) ∧
    _compute_composite_score
      (fun k => if k = "skill_match" then some 50 else none)
      (fun k => if k = "ats_score" then some 80
        else if k = "match_percentage" then some 60 else none) = 68 := by
  refine ⟨fun cs g => rfl, ?_⟩
  simp only [_compute_composite_score]
  simp [pyOr0]
  rw [pyRound2_eq ((0.5 : ℚ) * 80 + 0.3 * 60 + 0.2 * 50) 6800 (by norm_num)]
  norm_num

/-- C10: `_compute_composite_score` is total on missing inputs: a
missing or `None` `ats_score`, `match_percentage`, or `skill_match` is
each individually treated as `0.0` — its term drops out of the weighted
sum while the fields that are present are still used — and with two
empty dicts the result is `0.0`. -/
theorem composite_score_total_on_missing :
    (∀ (component_scores gemini_analysis : String → Option ℚ),
      gemini_analysis "ats_score" = none →
      _compute_composite_score component_scores gemini_analysis =
        pyRound2 ((0.3 : ℚ) * pyOr0 (gemini_analysis "match_percentage")
          + (0.2 : ℚ) * pyOr0 (component_scores "skill_match"))) ∧
    (∀ (component_scores gemini_analysis : String → Option ℚ),
      gemini_analysis "match_percentage" = none →
      _compute_composite_score component_scores gemini_analysis =
        pyRound2 ((0.5 : ℚ) * pyOr0 (gemini_analysis "ats_score")
          + (0.2 : ℚ) * pyOr0 (component_scores "skill_match"))) ∧
    (∀ (component_scores gemini_analysis : String → Option ℚ),
      component_scores "skill_match" = none →
      _compute_composite_score component_scores gemini_analysis =
        pyRound2 ((0.5 : ℚ) * pyOr0 (gemini_analysis "ats_score")
          + (0.3 : ℚ) * pyOr0 (gemini_analysis "match_percentage"))) ∧
    _compute_composite_score
      (fun k => if k = "skill_match" then some 50 else none) (fun _ => none) = 10 ∧
    _compute_composite_score (fun _ => none) (fun _ => none) = 0 := by
  refine ⟨fun cs g h => ?_, fun cs g h => ?_, fun cs g h => ?_, ?_, ?_⟩
  · simp only [_compute_composite_score, h]
    congr 1
    simp [pyOr0]
  · simp only [_compute_composite_score, h]
    congr 1
    simp [pyOr0]
  · simp only [_compute_composite_score, h]
    congr 1
    simp [pyOr0]
  · simp only [_compute_composite_score]
    simp [pyOr0]
    rw [pyRound2_eq ((0.2 : ℚ) * 50) 1000 (by norm_num)]
    norm_num
  · simp only [_compute_composite_score]
    simp [pyOr0]
    rw [pyRound2_eq 0 0 (by norm_num)]
    norm_num

theorem composite_score_total_on_missing_witness :
    _compute_composite_score
      (fun k => if k = "skill_match" then some (50 : ℚ) else none) (fun _ => none) =
      pyRound2 ((0.3 : ℚ) * pyOr0 ((fun (_ : String) => (none : Option ℚ)) "match_percentage")
        + (0.2 : ℚ) * pyOr0 ((fun k =>
            if k = "skill_match" then some (50 : ℚ) else none) "skill_match")) :=
  composite_score_total_on_missing.1
    (fun k => if k = "skill_match" then some (50 : ℚ) else none) (fun _ => none) rfl

/-- C7: `calculate_experience_score` is monotone non-decreasing on
`years ≥ 0`, with the boundary values `f 0 = 20`, `f 0.9 = 40`,
`f 1.9 = 60`, `f 4.9 = 80`, `f 9.9 = 90`, `f 10 = 100`. -/
theorem experience_score_monotone_steps :
    (∀ a b : ℚ, 0 ≤ a → a ≤ b →
      calculate_experience_score a ≤ calculate_experience_score b) ∧
    calculate_experience_score 0 = 20 ∧
    calculate_experience_score (0.9 : ℚ) = 40 ∧
    calculate_experience_score (1.9 : ℚ) = 60 ∧
    calculate_experience_score (4.9 : ℚ) = 80 ∧
    calculate_experience_score (9.9 : ℚ) = 90 ∧
    calculate_experience_score 10 = 100 := by
  refine ⟨?_, by norm_num [calculate_experience_score],
    by norm_num [calculate_experience_score], by norm_num [calculate_experience_score],
    by norm_num [calculate_experience_score], by norm_num [calculate_experience_score],
    by norm_num [calculate_experience_score]⟩
  intro a b ha hab
  rcases ha.eq_or_lt with h0 | h0
  · have : a = 0 := h0.symm
    subst this
    unfold calculate_experience_score
    split_ifs <;> norm_num
  · have hb : 0 < b := lt_of_lt_of_le h0 hab
    unfold calculate_experience_score
    split_ifs <;> linarith

theorem experience_score_monotone_steps_witness :
    calculate_experience_score 1 ≤ calculate_experience_score 2 :=
  experience_score_monotone_steps.1 1 2 (by norm_num) (by norm_num)

/-- C2: every field of the `ComponentScore` returned by
`calculate_scores` lies in the closed interval `[0, 100]`, for every
text, skills list, experience value, education list, and optional
job-keywords list. -/
theorem component_scores_bounded :
    ∀ (text : List Char) (skills : List (List Char)) (experience_years : ℚ)
      (education : List (List Char)) (job_keywords : Option (List (List Char))),
      (0 ≤ (calculate_scores text skills experience_years education job_keywords).skill_match ∧
        (calculate_scores text skills experience_years education job_keywords).skill_match ≤ 100) ∧
      (0 ≤ (calculate_scores text skills experience_years education job_keywords).experience ∧
        (calculate_scores text skills experience_years education job_keywords).experience ≤ 100) ∧
      (0 ≤ (calculate_scores text skills experience_years education job_keywords).education ∧
        (calculate_scores text skills experience_years education job_keywords).education ≤ 100) ∧
      (0 ≤ (calculate_scores text skills experience_years education job_keywords).format ∧
        (calculate_scores text skills experience_years education job_keywords).format ≤ 100) ∧
      (0 ≤ (calculate_scores text skills experience_years education job_keywords).keyword_density ∧
        (calculate_scores text skills experience_years education job_keywords).keyword_density ≤ 100) ∧
      (0 ≤ (calculate_scores text skills experience_years education job_keywords).timeline ∧
        (calculate_scores text skills experience_years education job_keywords).timeline ≤ 100) :=
  fun text skills experience_years education job_keywords =>
    ⟨skill_match_score_bounds skills job_keywords,
     experience_score_bounds experience_years,
     education_score_bounds education,
     format_score_bounds text,
     keyword_density_bounds text job_keywords,
     timeline_score_bounds text⟩

/-- C5: `detect_duplicates` returns `(false, none)` for an empty corpus;
for a non-empty corpus it returns `(true, id)` when the maximum
similarity is at least 0.95, where `id` belongs to the first corpus
entry attaining the maximum, and `(false, none)` otherwise. -/
theorem detect_duplicates_spec :
    ∀ (sim : String → String → ℚ) (new_text : String)
      (existing_texts : List (String × String)),
      (existing_texts = [] →
        detect_duplicates sim new_text existing_texts = (false, none)) ∧
      (existing_texts ≠ [] →
        ((0.95 : ℚ) ≤ npMax (existing_texts.map (fun p => sim new_text p.2)) →
          ∃ i, ∃ h : i < existing_texts.length,
            (existing_texts.map (fun p => sim new_text p.2)).getD i 0 =
              npMax (existing_texts.map (fun p => sim new_text p.2)) ∧
            (∀ j, j < i →
              (existing_texts.map (fun p => sim new_text p.2)).getD j 0 ≠
                npMax (existing_texts.map (fun p => sim new_text p.2))) ∧
            detect_duplicates sim new_text existing_texts =
              (true, some (existing_texts.get ⟨i, h⟩).1)) ∧
        (npMax (existing_texts.map (fun p => sim new_text p.2)) < 0.95 →
          detect_duplicates sim new_text existing_texts = (false, none))) := by
  intro sim t ex
  constructor
  · intro h
    subst h
    rfl
  · intro hne
    have hexe : ex.isEmpty = false := by
      cases ex with
      | nil => exact absurd rfl hne
      | cons p ps => rfl
    constructor
    · intro hth
      have hsne : ex.map (fun p => sim t p.2) ≠ [] := by
        cases ex with
        | nil => exact absurd rfl hne
        | cons p ps => simp
      have hmem : npMax (ex.map (fun p => sim t p.2)) ∈ ex.map (fun p => sim t p.2) :=
        npMax_mem hsne
      obtain ⟨hlt, hget, hfirst⟩ := idxOfFirst_spec _ _ hmem
      have hlen : (ex.map (fun p => sim t p.2)).length = ex.length := List.length_map _ _
      refine ⟨idxOfFirst (npMax (ex.map (fun p => sim t p.2)))
        (ex.map (fun p => sim t p.2)), hlen ▸ hlt, hget, hfirst, ?_⟩
      have hn : npArgmax (ex.map (fun p => sim t p.2)) < ex.length := hlen ▸ hlt
      simp only [detect_duplicates, hexe, Bool.false_eq_true, if_false, if_pos hth]
      rw [List.getD_eq_get ex ("", "") hn]
      rfl
    · intro hlt
      simp only [detect_duplicates, hexe, Bool.false_eq_true, if_false,
        if_neg (not_le.mpr hlt)]

theorem detect_duplicates_spec_witness :
    ∃ i, ∃ h : i < 2,
      ([(1 : ℚ), 1]).getD i 0 = npMax [(1 : ℚ), 1] ∧
      (∀ j, j < i → ([(1 : ℚ), 1]).getD j 0 ≠ npMax [(1 : ℚ), 1]) ∧
      detect_duplicates (fun _ _ => (1 : ℚ)) "A" [("id1", "A"), ("id2", "A")] =
        (true, some (([("id1", "A"), ("id2", "A")] : List (String × String)).get ⟨i, h⟩).1) :=
  ((detect_duplicates_spec (fun _ _ => (1 : ℚ)) "A" [("id1", "A"), ("id2", "A")]).2
    (by simp)).1 (by norm_num [npMax])

/-- C1 fails on the code: with `skills = ["a"]` and
`job_keywords = ["a", "zz"]` every skill matches a keyword, so the
claimed "fraction of skills" value is 100, but
`calculate_skill_match_score` divides the match count by the number of
job keywords and returns 50. -/
theorem skill_match_denominator_counterexample :
    calculate_skill_match_score ["a".data] (some ["a".data, "zz".data]) = 50 ∧
    skillMatchScoreSpec ["a".data] ["a".data, "zz".data] = 100 ∧
    calculate_skill_match_score ["a".data] (some ["a".data, "zz".data]) ≠
      skillMatchScoreSpec ["a".data] ["a".data, "zz".data] := by
  have hcode : calculate_skill_match_score ["a".data] (some ["a".data, "zz".data]) = 50 := by
    have hm : (((["a".data].map pyLower)).filter (fun skill =>
        ((["a".data, "zz".data]).map pyLower).any
          (fun kw => hasInfix kw skill || hasInfix skill kw))).length = 1 := by decide
    simp only [calculate_skill_match_score, Option.getD, List.isEmpty_cons, hm]
    norm_num
  have hspec : skillMatchScoreSpec ["a".data] ["a".data, "zz".data] = 100 := by
    have hm : (((["a".data].map pyLower)).filter (fun skill =>
        ((["a".data, "zz".data]).map pyLower).any
          (fun kw => hasInfix kw skill || hasInfix skill kw))).length = 1 := by decide
    simp only [skillMatchScoreSpec, List.isEmpty_cons, hm]
    norm_num
  refine ⟨hcode, hspec, ?_⟩
  rw [hcode, hspec]
  norm_num

/-- C1 amended: with a non-empty `job_keywords` list the score is 0 for an
empty skills list, and otherwise it is the number of skills that
substring-match (in either direction) some job keyword divided by the
number of job keywords (not of skills), scaled to 100 and capped at 100. -/
theorem skill_match_score_amended :
    ∀ (skills job_keywords : List (List Char)), job_keywords ≠ [] →
      calculate_skill_match_score [] (some job_keywords) = 0 ∧
      (skills ≠ [] →
        calculate_skill_match_score skills (some job_keywords) =
          min ((((skills.map pyLower).filter (fun skill =>
              (job_keywords.map pyLower).any
                (fun kw => hasInfix kw skill || hasInfix skill kw))).length : ℚ)
            / (job_keywords.length : ℚ) * 100) 100) := by
  intro skills kws hk
  have hke : kws.isEmpty = false := by
    cases kws with
    | nil => exact absurd rfl hk
    | cons a t => rfl
  constructor
  · simp [calculate_skill_match_score, hke]
  · intro hs
    have hse : skills.isEmpty = false := by
      cases skills with
      | nil => exact absurd rfl hs
      | cons a t => rfl
    have hkle : (kws.map pyLower).isEmpty = false := by
      cases kws with
      | nil => exact absurd rfl hk
      | cons a t => rfl
    simp only [calculate_skill_match_score, Option.getD, hke, hse, hkle,
      Bool.false_eq_true, if_false, List.length_map]

theorem skill_match_score_amended_witness :
    calculate_skill_match_score ["a".data] (some ["a".data, "zz".data]) =
      min ((((["a".data].map pyLower).filter (fun skill =>
          (["a".data, "zz".data].map pyLower).any
            (fun kw => hasInfix kw skill || hasInfix skill kw))).length : ℚ)
        / ((["a".data, "zz".data] : List (List Char)).length : ℚ) * 100) 100 :=
  (skill_match_score_amended ["a".data] ["a".data, "zz".data]
    (by decide)).2 (by decide)

/-- C6 fails on the code: with keywords given but an empty text the
whitespace word count is 0 and `calculate_keyword_density` returns 0,
which is outside the claimed range `{40, 60, 80, 100}`. -/
theorem keyword_density_zero_words_counterexample :
    calculate_keyword_density [] (some ["a".data]) = 0 ∧
    ¬(calculate_keyword_density [] (some ["a".data]) = 40 ∨
      calculate_keyword_density [] (some ["a".data]) = 60 ∨
      calculate_keyword_density [] (some ["a".data]) = 80 ∨
      calculate_keyword_density [] (some ["a".data]) = 100) := by
  have h0 : calculate_keyword_density [] (some ["a".data]) = 0 := by
    simp [calculate_keyword_density, pyWords, pyWordsAux]
  refine ⟨h0, ?_⟩
  rw [h0]
  norm_num

/-- C6 amended: 50 with no keywords; with keywords, 0 when the text has
no whitespace-separated words, and otherwise the banded value of
`density = occurrences / word_count * 100`, which is always one of
40, 60, 80, 100. -/
theorem keyword_density_banding_amended :
    ∀ (text : List Char) (keywords : Option (List (List Char))),
      ((keywords.getD []).isEmpty = true →
        calculate_keyword_density text keywords = 50) ∧
      ((keywords.getD []).isEmpty = false →
        ((pyWords text).length = 0 → calculate_keyword_density text keywords = 0) ∧
        ((pyWords text).length ≠ 0 →
          (calculate_keyword_density text keywords =
            (let density : ℚ := (((((keywords.getD []).map pyLower).map
                (fun kw => countOccs kw (pyLower text))).sum : ℚ)
                / (((pyWords text).length : Nat) : ℚ)) * 100
            if 1 ≤ density ∧ density ≤ 3 then 100
            else if (1/2 ≤ density ∧ density < 1) ∨ (3 < density ∧ density ≤ 5) then 80
            else if (1/10 ≤ density ∧ density < 1/2) ∨ (5 < density ∧ density ≤ 7) then 60
            else 40)) ∧
          (calculate_keyword_density text keywords = 40 ∨
           calculate_keyword_density text keywords = 60 ∨
           calculate_keyword_density text keywords = 80 ∨
           calculate_keyword_density text keywords = 100))) := by
  intro text kws
  refine ⟨fun h => ?_, fun h => ⟨fun hw => ?_, fun hw => ⟨?_, ?_⟩⟩⟩
  · simp [calculate_keyword_density, h]
  · simp [calculate_keyword_density, h, hw]
  · simp only [calculate_keyword_density, h, Bool.false_eq_true, if_false, hw, if_neg hw]
  · simp only [calculate_keyword_density, h, Bool.false_eq_true, if_false, hw, if_neg hw]
    split_ifs <;> simp

theorem keyword_density_banding_amended_witness :
    calculate_keyword_density "a b c d".data (some ["a".data]) = 40 ∨
    calculate_keyword_density "a b c d".data (some ["a".data]) = 60 ∨
    calculate_keyword_density "a b c d".data (some ["a".data]) = 80 ∨
    calculate_keyword_density "a b c d".data (some ["a".data]) = 100 :=
  (((keyword_density_banding_amended "a b c d".data
    (some ["a".data])).2 rfl).2 (by decide)).2

/-- C9: `recommend` returns the empty list (rather than raising) when the
resume text is empty or whitespace-only, and when the engine is unbuilt:
no jobs, no fitted vectorizer, or no job matrix. -/
theorem recommend_empty_cases :
    ∀ (r : JobRecommender) (resume_text : String) (top_n : Nat),
      (pyStrip resume_text.data = [] → recommend r resume_text top_n = []) ∧
      (r.jobs = [] → recommend r resume_text top_n = []) ∧
      (r.simFn = none → recommend r resume_text top_n = []) ∧
      (r.jobMatrix = none → recommend r resume_text top_n = []) := by
  intro r text n
  refine ⟨fun h => ?_, fun h => ?_, fun h => ?_, fun h => ?_⟩
  · simp [recommend, h]
  · simp [recommend, h]
  · unfold recommend
    split_ifs
    · rfl
    · rfl
    · simp only [h]
  · unfold recommend
    split_ifs
    · rfl
    · rfl
    · simp only [h]
      cases r.simFn <;> rfl

theorem recommend_empty_cases_witness :
    recommend { jobs := [], simFn := none, jobMatrix := none, classifier := none }
      "" 5 = [] :=
  (recommend_empty_cases
    { jobs := [], simFn := none, jobMatrix := none, classifier := none } "" 5).1 rfl

/-- C4 fails on the code: with two catalog entries whose combined scores
tie, `recommend` returns the *later* catalog entry first, because the
source reverses an ascending `np.argsort` (so equal scores come out in
reverse catalog order), while the claim requires the earlier entry
first. -/
theorem recommend_tie_order_counterexample :
    (recommend tieBreakRecommender "resume" 2).map (fun x => x.job.id) = ["j2", "j1"] ∧
    (recommend tieBreakRecommender "resume" 2).map (fun x => x.job.id) ≠ ["j1", "j2"] := by
  have hr2 : List.range 2 = [0, 1] := rfl
  have hc : combinedScores [(1 : ℚ)/2, 1/2] [0, 0] 2 = [(3 : ℚ)/10, 3/10] := by
    simp [combinedScores, hr2] <;> norm_num
  have hle : argsortLe [(3 : ℚ)/10, 3/10] 0 1 = true := by
    simp [argsortLe]
  have hsort : argsortAsc [(3 : ℚ)/10, 3/10] = [0, 1] := by
    simp [argsortAsc, isortLe, insertLe, hle, hr2]
  have hidx : rankedIndices (combinedScores [(1 : ℚ)/2, 1/2] [0, 0] 2) 2 = [1, 0] := by
    unfold rankedIndices
    rw [hc, hsort]
    rfl
  have hrec : recommend tieBreakRecommender "resume" 2 =
      (rankedIndices (combinedScores [(1 : ℚ)/2, 1/2] [0, 0] 2) 2).map (fun idx =>
        { job := tieBreakRecommender.jobs.getD idx default
          similarity_score := [(1 : ℚ)/2, 1/2].getD idx 0
          probability_score := ([(0 : ℚ), 0]).getD idx 0
          final_score := (combinedScores [(1 : ℚ)/2, 1/2] [0, 0] 2).getD idx 0 }) := rfl
  rw [hrec, hidx]
  constructor
  · rfl
  · decide

/-- C4 amended: `recommend` returns at most `top_n` entries, sorted by
`final_score = 0.6·similarity + 0.4·probability` in non-increasing order;
but entries with equal `final_score` appear in *reverse* catalog order
(largest original index first), since the code reverses a stable
ascending argsort. -/
theorem recommend_ranking_amended :
    ∀ (r : JobRecommender) (resume_text : String) (top_n : Nat) (s : List ℚ),
      (recommend r resume_text top_n).length ≤ top_n ∧
      (recommend r resume_text top_n).Pairwise
        (fun a b => b.final_score ≤ a.final_score) ∧
      (rankedIndices s top_n).Pairwise
        (fun i j => s.getD j 0 < s.getD i 0 ∨ (s.getD i 0 = s.getD j 0 ∧ j ≤ i)) := by
  intro r text n s
  refine ⟨?_, ?_, rankedIndices_pairwise s n⟩
  · rcases recommend_shape r text n with h | ⟨c, f, h, hf⟩
    · rw [h]
      exact Nat.zero_le n
    · rw [h, List.length_map]
      exact rankedIndices_length c n
  · rcases recommend_shape r text n with h | ⟨c, f, h, hf⟩
    · rw [h]
      exact List.Pairwise.nil
    · rw [h, List.pairwise_map]
      refine (rankedIndices_pairwise c n).imp ?_
      intro i j hij
      rw [hf i, hf j]
      rcases hij with hlt | ⟨he, _⟩
      · exact le_of_lt hlt
      · exact le_of_eq he.symm

end ResumeNLP